import Mathlib

/-!
Verification of the claude-usage-monitor extension core logic.

The JavaScript sources are shallowly embedded: JSON payloads become the
inductive `JsonValue`, JS numbers become `Rat`, fallible lookups become
`Option`, and each source function is translated into a Lean function of
the same name.  JS-specific background semantics (truthiness, the `??`
and `or` operators, `String.prototype.includes`) are made explicit as
small helper functions.  Prototype-chain property access on primitives
(for example `"abc".length`) and string-to-number coercion are outside
the modelled fragment; payloads in all claims are plain JSON trees.
-/

set_option autoImplicit false

namespace UsageMonitor

/-- JSON value as delivered by the scraped API.  JS `undefined` is
represented by `Option.none` at use sites; `JsonValue.null` is JS `null`. -/
inductive JsonValue where
  | null : JsonValue
  | bool : Bool → JsonValue
  | num : Rat → JsonValue
  | str : String → JsonValue
  | obj : List (String × JsonValue) → JsonValue

/-- First binding of a key in an object literal (JS object keys are unique;
property access returns the stored value, `none` models `undefined`). -/
def findField : List (String × JsonValue) → String → Option JsonValue
  | [], _ => none
  | kv :: rest, key => if kv.1 = key then some kv.2 else findField rest key

/-- `v[part]`: property access.  Non-objects have no own properties in the
modelled fragment. -/
def jsGet : JsonValue → String → Option JsonValue
  | JsonValue.obj fields, key => findField fields key
  | _, _ => none

/-- JS truthiness of a JSON value (`NaN` does not occur in the model). -/
def jsFalsy : JsonValue → Bool
  | JsonValue.null => true
  | JsonValue.bool b => !b
  | JsonValue.num q => q = 0
  | JsonValue.str s => s = ""
  | JsonValue.obj _ => false

/-- JS truthiness where `none` is `undefined`. -/
def jsFalsyOpt : Option JsonValue → Bool
  | none => true
  | some v => jsFalsy v

/-- Accumulator-passing splitter implementing JS `path.split(".")`:
`"a.b"` gives `["a","b"]`, `""` gives `[""]`, `"a."` gives `["a",""]`. -/
def splitDotGo : List Char → List Char → List String
  | cur, [] => [String.mk cur.reverse]
  | cur, c :: rest =>
    if c = '.' then String.mk cur.reverse :: splitDotGo [] rest
    else splitDotGo (c :: cur) rest

/-- JS `path.split(".")`. -/
def splitPath (path : String) : List String :=
  splitDotGo [] path.toList

/-- The traversal loop of `getNestedValue` (apiSchema.js): at each step the
loop returns the default when the current value is `null`/`undefined`,
otherwise indexes by the next path segment.  `none` stands for the
null-or-undefined outcomes that fall back to the default. -/
def walkPath : Option JsonValue → List String → Option JsonValue
  | curr, [] => curr
  | none, _ :: _ => none
  | some JsonValue.null, _ :: _ => none
  | some v, p :: rest => walkPath (jsGet v p) rest

/-- `getNestedValue(obj, path, defaultValue)` from apiSchema.js: guard
`if (!obj || !path) return defaultValue`, walk the dot-separated path, and
finish with `current ?? defaultValue` (nullish coalescing, so `0` and
`false` survive). -/
def getNestedValue (obj : Option JsonValue) (path : String) (defaultValue : JsonValue) : JsonValue :=
  if jsFalsyOpt obj = true ∨ path = "" then defaultValue
  else
    match walkPath obj (splitPath path) with
    | some JsonValue.null => defaultValue
    | some v => v
    | none => defaultValue

/-- Structural presence of a leaf: following the listed segments through
object fields reaches the value.  Defined independently of `getNestedValue`
so that the spec claim about present/absent paths is not circular. -/
inductive LeafAt : JsonValue → List String → JsonValue → Prop where
  | here (v : JsonValue) : LeafAt v [] v
  | step (fs : List (String × JsonValue)) (p : String) (rest : List String) (v w : JsonValue) :
      findField fs p = some v → LeafAt v rest w → LeafAt (JsonValue.obj fs) (p :: rest) w

/-! ## Schema-driven extraction (apiSchema.js) -/

/-- One `{path, default}` entry of a schema (the `type` annotation of the JS
schema is never read by `extractFromSchema`, so it is omitted). -/
structure FieldSpec where
  path : String
  default : JsonValue

/-- A schema node: `extractFromSchema` distinguishes a single field
(`fields.path` set) from a nested group of fields. -/
inductive SchemaNode where
  | single : FieldSpec → SchemaNode
  | group : List (String × FieldSpec) → SchemaNode

/-- `extractFromSchema(response, schema)` from apiSchema.js: resolve every
leaf with `getNestedValue`, preserving the two-level shape. -/
def extractFromSchema (response : Option JsonValue) (schema : List (String × SchemaNode)) : JsonValue :=
  JsonValue.obj (schema.map (fun gn =>
    match gn.2 with
    | SchemaNode.single f => (gn.1, getNestedValue response f.path f.default)
    | SchemaNode.group fs =>
        (gn.1, JsonValue.obj (fs.map (fun fc => (fc.1, getNestedValue response fc.2.path fc.2.default))))))

/-- `USAGE_API_SCHEMA` from apiSchema.js. -/
def USAGE_API_SCHEMA : List (String × SchemaNode) := [
  ("fiveHour", SchemaNode.group [
    ("utilization", ⟨"five_hour.utilization", JsonValue.num 0⟩),
    ("resetsAt", ⟨"five_hour.resets_at", JsonValue.null⟩)]),
  ("sevenDay", SchemaNode.group [
    ("utilization", ⟨"seven_day.utilization", JsonValue.num 0⟩),
    ("resetsAt", ⟨"seven_day.resets_at", JsonValue.null⟩)]),
  ("sevenDaySonnet", SchemaNode.group [
    ("utilization", ⟨"seven_day_sonnet.utilization", JsonValue.null⟩),
    ("resetsAt", ⟨"seven_day_sonnet.resets_at", JsonValue.null⟩)]),
  ("sevenDayOpus", SchemaNode.group [
    ("utilization", ⟨"seven_day_opus.utilization", JsonValue.null⟩),
    ("resetsAt", ⟨"seven_day_opus.resets_at", JsonValue.null⟩)]),
  ("extraUsage", SchemaNode.group [
    ("value", ⟨"extra_usage", JsonValue.null⟩)])]

/-- `OVERAGE_API_SCHEMA` from apiSchema.js. -/
def OVERAGE_API_SCHEMA : List (String × SchemaNode) := [
  ("isEnabled", SchemaNode.single ⟨"is_enabled", JsonValue.bool false⟩),
  ("monthlyLimit", SchemaNode.single ⟨"monthly_credit_limit", JsonValue.num 0⟩),
  ("usedCredits", SchemaNode.single ⟨"used_credits", JsonValue.num 0⟩),
  ("currency", SchemaNode.single ⟨"currency", JsonValue.str "USD"⟩),
  ("outOfCredits", SchemaNode.single ⟨"out_of_credits", JsonValue.bool false⟩)]

/-- Direct property access `extracted.name` on a schema-shaped object; the
keys read by the JS code are present by construction, so collapsing
`undefined` to `null` here is immaterial. -/
def objGet (v : JsonValue) (key : String) : JsonValue :=
  match jsGet v key with
  | some w => w
  | none => JsonValue.null

/-- JS number conversion for the values a division can meet:
`null` is `0`, booleans are `0`/`1`; string-to-number coercion is not
modelled (`none`, which also stands for the `NaN` outcomes). -/
def jsToNumber : JsonValue → Option Rat
  | JsonValue.num q => some q
  | JsonValue.null => some 0
  | JsonValue.bool b => some (if b then 1 else 0)
  | JsonValue.str _ => none
  | JsonValue.obj _ => none

/-- `Math.round`: JS rounds half toward positive infinity. -/
def jsRound (q : Rat) : Int := Int.floor (q + 1/2)

/-- The processed monthly-credits object built by `processOverageData`.
Number fields are `Option Rat`; `none` stands for `NaN`-valued paths that
the claims never reach. -/
structure MonthlyCredits where
  limit : Option Rat
  used : Option Rat
  currency : JsonValue
  percent : Option Rat
  outOfCredits : JsonValue

/-- `processOverageData(overageData)` from apiSchema.js: guard on a missing
or falsy argument, extract by schema, bail out when `isEnabled` is falsy,
convert cents to major units, and compute the percentage behind the
`limitDollars > 0` divide-by-zero guard. -/
def processOverageData (overageData : Option JsonValue) : Option MonthlyCredits :=
  match overageData with
  | none => none
  | some p =>
    if jsFalsy p then none
    else
      let extracted := extractFromSchema (some p) OVERAGE_API_SCHEMA
      if jsFalsy (objGet extracted "isEnabled") then none
      else
        let usedDollars := (jsToNumber (objGet extracted "usedCredits")).map (fun q => q / 100)
        let limitDollars := (jsToNumber (objGet extracted "monthlyLimit")).map (fun q => q / 100)
        let percent : Option Rat :=
          match limitDollars with
          | some l =>
            if 0 < l then usedDollars.map (fun u => ((jsRound (u / l * 100) : Int) : Rat))
            else some 0
          | none => some 0
        some { limit := limitDollars, used := usedDollars,
               currency := objGet extracted "currency",
               percent := percent,
               outOfCredits := objGet extracted "outOfCredits" }

/-! ## Reset-time calculation (`calculateResetTime` of the scraper) -/

/-- The arithmetic part of `calculateResetTime` on the millisecond
difference `resetDate - now`.  All divisions happen on a positive
difference, where JS `Math.floor` of a float quotient and the integer
operations below agree. -/
def formatResetDiff (diffMs : Int) : String :=
  if diffMs ≤ 0 then "Soon"
  else
    let hours : Int := diffMs / 3600000
    let minutes : Int := (diffMs % 3600000) / 60000
    if hours > 24 then
      let days := hours / 24
      let remainingHours := hours % 24
      toString days ++ "d " ++ toString remainingHours ++ "h"
    else if hours > 0 then
      toString hours ++ "h " ++ toString minutes ++ "m"
    else
      toString minutes ++ "m"

/-- `calculateResetTime(isoTimestamp)` of the scraper, with the ambient
clock and the ISO-8601 parse made explicit (`dateParse` gives the epoch
milliseconds of a timestamp string).  The guard `if (!isoTimestamp)`
returns "Unknown" for `null` and the empty string; the schema only ever
supplies a string or `null` here, so the remaining constructors also map
to the guard value. -/
def calculateResetTime (dateParse : String → Int) (now : Int) (isoTimestamp : JsonValue) : String :=
  match isoTimestamp with
  | JsonValue.str s => if s = "" then "Unknown" else formatResetDiff (dateParse s - now)
  | _ => "Unknown"

/-! ## Snapshot processing (`processApiResponse` of the scraper) -/

/-- The snapshot object returned by `processApiResponse`.  `timestampMs`
stands for the `new Date()` stamp and `rawData` keeps the raw response. -/
structure ProcessedUsage where
  usagePercent : JsonValue
  resetTime : String
  usagePercentWeek : JsonValue
  resetTimeWeek : String
  usagePercentSonnet : JsonValue
  resetTimeSonnet : String
  usagePercentOpus : JsonValue
  resetTimeOpus : String
  extraUsage : JsonValue
  prepaidCredits : Option JsonValue
  monthlyCredits : Option MonthlyCredits
  timestampMs : Int
  rawData : Option JsonValue
  schemaVersion : String

/-- `processApiResponse(apiResponse, creditsData, overageData)` of the
scraper: extract by `USAGE_API_SCHEMA`, process the overage payload, and
assemble the snapshot.  `creditsData ?? null` keeps `none` as the null
outcome. -/
def processApiResponse (dateParse : String → Int) (now : Int)
    (apiResponse creditsData overageData : Option JsonValue) : ProcessedUsage :=
  let data := extractFromSchema apiResponse USAGE_API_SCHEMA
  let monthlyCredits := processOverageData overageData
  { usagePercent := objGet (objGet data "fiveHour") "utilization",
    resetTime := calculateResetTime dateParse now (objGet (objGet data "fiveHour") "resetsAt"),
    usagePercentWeek := objGet (objGet data "sevenDay") "utilization",
    resetTimeWeek := calculateResetTime dateParse now (objGet (objGet data "sevenDay") "resetsAt"),
    usagePercentSonnet := objGet (objGet data "sevenDaySonnet") "utilization",
    resetTimeSonnet := calculateResetTime dateParse now (objGet (objGet data "sevenDaySonnet") "resetsAt"),
    usagePercentOpus := objGet (objGet data "sevenDayOpus") "utilization",
    resetTimeOpus := calculateResetTime dateParse now (objGet (objGet data "sevenDayOpus") "resetsAt"),
    extraUsage := objGet (objGet data "extraUsage") "value",
    prepaidCredits := creditsData,
    monthlyCredits := monthlyCredits,
    timestampMs := now,
    rawData := apiResponse,
    schemaVersion := "Nov 2025" }

/-! ## Log aggregation (claudeDataLoader.js)

A JSONL line that parses to a JS object is modelled by `UsageRecord`;
malformed lines (skipped by `parseJsonlFile` before validation) and the
file-system walk are outside the model, so `loadUsageRecords` takes the
per-file lists of parsed records directly.  `timestamp` holds the epoch
milliseconds `new Date(record.timestamp).getTime()` yields. -/

/-- `message.usage` of a record: the token fields checked and summed by the
loader (`none` = field absent). -/
structure Usage where
  input_tokens : Option Rat
  output_tokens : Option Rat
  cache_creation_input_tokens : Option Rat
  cache_read_input_tokens : Option Rat
deriving DecidableEq

/-- `record.message`. -/
structure Message where
  id : Option String
  usage : Option Usage
  model : Option String
deriving DecidableEq

/-- One parsed JSONL record. -/
structure UsageRecord where
  message : Option Message
  requestId : Option String
  isApiErrorMessage : Bool
  timestamp : Int
deriving DecidableEq

/-- `isValidUsageRecord(record)`: message and usage objects exist, the two
mandatory token counts are numbers, synthetic and error records are
excluded. -/
def isValidUsageRecord (r : UsageRecord) : Bool :=
  match r.message with
  | none => false
  | some m =>
    match m.usage with
    | none => false
    | some u =>
      u.input_tokens.isSome && u.output_tokens.isSome &&
      !(m.model == some "<synthetic>") && !r.isApiErrorMessage

/-- `record.message?.id || ''` (the JS `or` collapses both the missing and
the empty id to `""`, which `Option.getD ""` reproduces). -/
def messageIdOf (r : UsageRecord) : String :=
  (r.message.bind Message.id).getD ""

/-- `record.requestId || ''`. -/
def requestIdOf (r : UsageRecord) : String :=
  r.requestId.getD ""

/-- `getRecordHash(record)`: the dedup key `messageId + "-" + requestId`. -/
def getRecordHash (r : UsageRecord) : String :=
  messageIdOf r ++ "-" ++ requestIdOf r

/-- `usage.x || 0` on a token field. -/
def tokenOrZero (x : Option Rat) : Rat := x.getD 0

/-- `calculateTotalTokens(usage)`. -/
def calculateTotalTokens (u : Usage) : Rat :=
  tokenOrZero u.input_tokens + tokenOrZero u.output_tokens +
  tokenOrZero u.cache_creation_input_tokens + tokenOrZero u.cache_read_input_tokens

/-- The usage object of a record; on records passing `isValidUsageRecord`
the default is never taken (the JS code only reads usage after
validation). -/
def usageOf (r : UsageRecord) : Usage :=
  (r.message.bind Message.usage).getD ⟨none, none, none, none⟩

/-- A record's token sum, `calculateTotalTokens(record.message.usage)`. -/
def recordTotalTokens (r : UsageRecord) : Rat :=
  calculateTotalTokens (usageOf r)

/-- The aggregate returned by `loadUsageRecords` (`records` is the
deduplicated list it also returns). -/
structure AggregateUsage where
  totalTokens : Rat
  inputTokens : Rat
  outputTokens : Rat
  cacheCreationTokens : Rat
  cacheReadTokens : Rat
  messageCount : Nat
  records : List UsageRecord
deriving DecidableEq

/-- The timestamp filter: `if (sinceTimestamp)` is skipped for a missing
argument and for `0` (both JS-falsy); otherwise records with
`recordTime >= sinceTimestamp` are kept. -/
def filterSince (sinceTimestamp : Option Int) (l : List UsageRecord) : List UsageRecord :=
  match sinceTimestamp with
  | none => l
  | some t => if t = 0 then l else l.filter (fun r => decide (t ≤ r.timestamp))

/-- Whether one record survives `filterSince`. -/
def sinceKeeps (sinceTimestamp : Option Int) (r : UsageRecord) : Bool :=
  match sinceTimestamp with
  | none => true
  | some t => if t = 0 then true else decide (t ≤ r.timestamp)

/-- The dedup loop of `loadUsageRecords`: a seen-set of record hashes,
first occurrence kept. -/
def dedupRecords : List String → List UsageRecord → List UsageRecord
  | _, [] => []
  | seen, r :: rs =>
    if getRecordHash r ∈ seen then dedupRecords seen rs
    else r :: dedupRecords (getRecordHash r :: seen) rs

/-- `loadUsageRecords(sinceTimestamp)` over the parsed contents of the
discovered JSONL files: per-file validation (`parseJsonlFile` keeps the
records passing `isValidUsageRecord`), concatenation, the optional time
filter, dedup by `getRecordHash`, and the four token sums.  The missing
data-directory case of the JS code is the `files = []` instance. -/
def loadUsageRecords (files : List (List UsageRecord)) (sinceTimestamp : Option Int) : AggregateUsage :=
  let allRecords := (files.map (fun f => f.filter (fun r => isValidUsageRecord r))).flatten
  let filteredRecords := filterSince sinceTimestamp allRecords
  let uniqueRecords := dedupRecords [] filteredRecords
  let totalInputTokens := (uniqueRecords.map (fun r => tokenOrZero (usageOf r).input_tokens)).sum
  let totalOutputTokens := (uniqueRecords.map (fun r => tokenOrZero (usageOf r).output_tokens)).sum
  let totalCacheCreationTokens := (uniqueRecords.map (fun r => tokenOrZero (usageOf r).cache_creation_input_tokens)).sum
  let totalCacheReadTokens := (uniqueRecords.map (fun r => tokenOrZero (usageOf r).cache_read_input_tokens)).sum
  { totalTokens := totalInputTokens + totalOutputTokens + totalCacheCreationTokens + totalCacheReadTokens,
    inputTokens := totalInputTokens,
    outputTokens := totalOutputTokens,
    cacheCreationTokens := totalCacheCreationTokens,
    cacheReadTokens := totalCacheReadTokens,
    messageCount := uniqueRecords.length,
    records := uniqueRecords }

/-- The deduplicated record list a `loadUsageRecords` call works from
(named for the statements below; `loadUsageRecords` computes exactly
this). -/
def uniqueOf (files : List (List UsageRecord)) (sinceTimestamp : Option Int) : List UsageRecord :=
  dedupRecords [] (filterSince sinceTimestamp
    ((files.map (fun f => f.filter (fun r => isValidUsageRecord r))).flatten))

/-! ## Request interception (`setupRequestInterception` of the scraper) -/

/-- `haystack.includes(needle)` on character lists. -/
def containsSub : List Char → List Char → Bool
  | [], needle => needle.isEmpty
  | c :: rest, needle => needle.isPrefixOf (c :: rest) || containsSub rest needle

/-- JS `url.includes(sub)`. -/
def jsIncludes (s sub : String) : Bool := containsSub s.toList sub.toList

/-- One entry of `API_ENDPOINTS` (apiSchema.js). -/
structure EndpointConfig where
  pattern : String
  contains : String
  description : String

/-- `API_ENDPOINTS.usage`. -/
def apiEndpointUsage : EndpointConfig :=
  ⟨"/api/organizations/", "/usage", "Main usage metrics endpoint"⟩

/-- `API_ENDPOINTS.prepaidCredits`. -/
def apiEndpointPrepaidCredits : EndpointConfig :=
  ⟨"/api/organizations/", "/prepaid/credits", "Prepaid credits balance"⟩

/-- `API_ENDPOINTS.overageSpendLimit`. -/
def apiEndpointOverageSpendLimit : EndpointConfig :=
  ⟨"/api/organizations/", "/overage_spend_limit", "Monthly spend limit / extra usage"⟩

/-- `matchesEndpoint(url, endpointConfig)` from apiSchema.js. -/
def matchesEndpoint (url : String) (endpointConfig : EndpointConfig) : Bool :=
  jsIncludes url endpointConfig.pattern && jsIncludes url endpointConfig.contains

/-- An observed outbound request. -/
structure HttpRequest where
  method : String
  url : String
  headers : List (String × String)

/-- The header object `{...request.headers(), "Content-Type":
"application/json"}`: the spread with an overriding key, as a map. -/
def headersWithJson (hs : List (String × String)) : List (String × String) :=
  hs.filter (fun kv => kv.1 != "Content-Type") ++ [("Content-Type", "application/json")]

/-- The endpoint-capture state kept on the scraper object. -/
structure ScraperEndpointState where
  apiEndpoint : Option String
  apiHeaders : Option (List (String × String))
  creditsEndpoint : Option String
  overageEndpoint : Option String
  capturedEndpoints : List (String × String)

/-- The state before any request is observed. -/
def initialEndpointState : ScraperEndpointState := ⟨none, none, none, none, []⟩

/-- The body of the `page.on("request", ...)` listener of
`setupRequestInterception`: push every `/api/` URL to the debug list, then
assign the captured endpoint fields on every matching request (the debug
logging and the final `request.continue()` are I/O). -/
def handleRequest (s : ScraperEndpointState) (req : HttpRequest) : ScraperEndpointState :=
  let s1 := if jsIncludes req.url "/api/" then
      { s with capturedEndpoints := s.capturedEndpoints ++ [(req.method, req.url)] }
    else s
  let s2 := if matchesEndpoint req.url apiEndpointUsage then
      { s1 with apiEndpoint := some req.url, apiHeaders := some (headersWithJson req.headers) }
    else s1
  let s3 := if matchesEndpoint req.url apiEndpointPrepaidCredits then
      { s2 with creditsEndpoint := some req.url }
    else s2
  if matchesEndpoint req.url apiEndpointOverageSpendLimit then
    { s3 with overageEndpoint := some req.url }
  else s3

/-- A session's sequence of observed requests, in order. -/
def processRequests (s : ScraperEndpointState) (reqs : List HttpRequest) : ScraperEndpointState :=
  reqs.foldl handleRequest s

/-- The endpoint-clearing part of `reset()`: all captured endpoints are
nulled and the debug list emptied (closing the browser is I/O). -/
def resetEndpoints (s : ScraperEndpointState) : ScraperEndpointState :=
  { s with apiEndpoint := none, apiHeaders := none, creditsEndpoint := none,
           overageEndpoint := none, capturedEndpoints := [] }

/-! ## Login flow (`ensureLoggedIn` of the scraper) -/

/-- The environment one `ensureLoggedIn()` call runs against: whether the
navigation to the usage page throws its timeout, the URL the page settles
on, and whether the five-minute login wait expires. -/
structure LoginEnv where
  gotoTimesOut : Bool
  urlAfterNav : String
  loginWaitTimesOut : Bool

/-- The message of the error thrown when the login wait expires. -/
def loginTimeoutMsg : String :=
  "Login timeout. Please try again and complete the login process."

/-- The message of the error thrown by the outer catch for any error whose
message contains "timeout". -/
def connectionFailMsg : String :=
  "Failed to load Claude.ai. Please check your internet connection."

/-- A representative puppeteer navigation-timeout message (what
`page.goto` rejects with; it contains the word "timeout"). -/
def navTimeoutMsg : String := "Navigation timeout of 30000 ms exceeded"

/-- The try-block of `ensureLoggedIn()`: navigate, read the URL, and when
it contains "login" or "auth" wait for it to leave, throwing the
login-timeout error when the wait expires (the two
`showInformationMessage` calls are I/O). -/
def ensureLoggedInBody (env : LoginEnv) : Except String Unit :=
  if env.gotoTimesOut then Except.error navTimeoutMsg
  else if jsIncludes env.urlAfterNav "login" || jsIncludes env.urlAfterNav "auth" then
    if env.loginWaitTimesOut then Except.error loginTimeoutMsg
    else Except.ok ()
  else Except.ok ()

/-- `ensureLoggedIn()` with its outer catch: any error whose message
contains "timeout" is replaced by the connection-failure error, the rest
are rethrown. -/
def ensureLoggedIn (env : LoginEnv) : Except String Unit :=
  match ensureLoggedInBody env with
  | Except.ok u => Except.ok u
  | Except.error msg =>
    if jsIncludes msg "timeout" then Except.error connectionFailMsg
    else Except.error msg

/-! ## HTML fallback extraction (the tail of `fetchUsageData`)

The two regular expressions run against `document.body.innerText` are
embedded as deterministic scanners.  Both patterns are backtracking-free on
their own structure: a maximal digit run must be directly followed by `%`
for the first to match, and maximal whitespace runs must be directly
followed by the literal words for the second, so leftmost-match scanning
with maximal munch reproduces the JS regex semantics. -/

/-- ASCII digit test (`\d`). -/
def isAsciiDigit (c : Char) : Bool := '0' ≤ c && c ≤ '9'

/-- The whitespace class `\s` restricted to the characters page text
contains. -/
def isJsSpace (c : Char) : Bool :=
  c = ' ' || c = '\t' || c = '\n' || c = '\r' || c = '\x0b' || c = '\x0c'

/-- Case-insensitively consume a literal word, returning the rest. -/
def ciDropWord : List Char → List Char → Option (List Char)
  | [], cs => some cs
  | _ :: _, [] => none
  | w :: ws, c :: cs => if c.toLower = w.toLower then ciDropWord ws cs else none

/-- `parseInt` on a digit run. -/
def digitsToNat (ds : List Char) : Nat :=
  ds.foldl (fun a c => a * 10 + (c.toNat - '0'.toNat)) 0

/-- Try `/(\d+)%\s*used/i` anchored at the current position. -/
def matchUsageAt (cs : List Char) : Option Nat :=
  let ds := cs.takeWhile isAsciiDigit
  let rest := cs.dropWhile isAsciiDigit
  if ds.isEmpty then none
  else
    match rest with
    | '%' :: rest2 =>
      match ciDropWord "used".toList (rest2.dropWhile isJsSpace) with
      | some _ => some (digitsToNat ds)
      | none => none
    | _ => none

/-- Leftmost match of `/(\d+)%\s*used/i`, giving the captured number. -/
def findUsage : List Char → Option Nat
  | [] => none
  | c :: cs =>
    match matchUsageAt (c :: cs) with
    | some n => some n
    | none => findUsage cs

/-- Try `/Resets?\s+in\s+([^\n]+)/i` anchored at the current position,
giving the capture group. -/
def matchResetAt (cs : List Char) : Option (List Char) :=
  match ciDropWord "reset".toList cs with
  | none => none
  | some rest =>
    let rest1 := match rest with
      | c :: t => if c.toLower = 's' then t else rest
      | [] => rest
    if (rest1.takeWhile isJsSpace).isEmpty then none
    else
      match ciDropWord "in".toList (rest1.dropWhile isJsSpace) with
      | none => none
      | some rest3 =>
        if (rest3.takeWhile isJsSpace).isEmpty then none
        else
          let body := (rest3.dropWhile isJsSpace).takeWhile (fun c => c ≠ '\n')
          if body.isEmpty then none else some body

/-- Leftmost match of `/Resets?\s+in\s+([^\n]+)/i`. -/
def findReset : List Char → Option (List Char)
  | [] => none
  | c :: cs =>
    match matchResetAt (c :: cs) with
    | some b => some b
    | none => findReset cs

/-- JS `String.prototype.trim` on the capture. -/
def jsTrim (cs : List Char) : List Char :=
  ((cs.dropWhile isJsSpace).reverse.dropWhile isJsSpace).reverse

/-- The object built inside `page.evaluate` by the fallback scraper:
`usagePercent` is `null` when the percentage pattern finds nothing,
`resetTime` is the trimmed capture or `null`. -/
structure FallbackPageData where
  usagePercent : Option Nat
  resetTime : Option String

/-- The `page.evaluate` body of the HTML fallback. -/
def parseUsagePage (bodyText : String) : FallbackPageData :=
  { usagePercent := findUsage bodyText.toList,
    resetTime := (findReset bodyText.toList).map (fun b => String.mk (jsTrim b)) }

/-- The snapshot the fallback path returns. -/
structure FallbackResult where
  usagePercent : Nat
  resetTime : String
deriving DecidableEq

/-- The tail of `fetchUsageData()`: throw the layout-changed error when no
percentage was found, otherwise return the snapshot with
`data.resetTime || "Unknown"` (the JS `or`, so the missing and the empty
phrase both yield the placeholder). -/
def fetchUsageDataFallback (bodyText : String) : Except String FallbackResult :=
  let data := parseUsagePage bodyText
  match data.usagePercent with
  | none => Except.error "Could not find usage percentage on settings page. The page layout may have changed."
  | some n =>
    Except.ok { usagePercent := n,
                resetTime := match data.resetTime with
                  | some s => if s = "" then "Unknown" else s
                  | none => "Unknown" }

/-! ## Concrete inputs used by witnesses and counterexamples -/

/-- A payload with leaves `0` and `false` and one absent sibling. -/
def nestedPayload : JsonValue :=
  JsonValue.obj [("a", JsonValue.obj [("b", JsonValue.num 0), ("flag", JsonValue.bool false)])]

/-- The end-to-end scenario payload of the spec:
`{five_hour:{utilization:0.45, resets_at:<future>}, seven_day:{utilization:0.78}}`. -/
def usageScenePayload : JsonValue :=
  JsonValue.obj [
    ("five_hour", JsonValue.obj [
      ("utilization", JsonValue.num (45/100)),
      ("resets_at", JsonValue.str "2025-11-20T14:30:00Z")]),
    ("seven_day", JsonValue.obj [
      ("utilization", JsonValue.num (78/100))])]

/-- A date parse under which the scenario's `resets_at` lies 2h30m
(9000000 ms) after clock instant 0. -/
def sceneDateParse : String → Int := fun _ => 9000000

/-- The overage example payload: 6300 used cents of a 10000 cent limit. -/
def overagePayload : JsonValue :=
  JsonValue.obj [
    ("is_enabled", JsonValue.bool true),
    ("monthly_credit_limit", JsonValue.num 10000),
    ("used_credits", JsonValue.num 6300),
    ("currency", JsonValue.str "USD"),
    ("out_of_credits", JsonValue.bool false)]

/-- A valid record with both ids set. -/
def recWithIds : UsageRecord :=
  { message := some { id := some "msg-1",
                      usage := some ⟨some 100, some 50, some 0, some 25⟩,
                      model := some "claude-sonnet" },
    requestId := some "req-1",
    isApiErrorMessage := false,
    timestamp := 1000 }

/-- A valid record with no message id and no request id. -/
def recNoIdA : UsageRecord :=
  { message := some { id := none,
                      usage := some ⟨some 10, some 20, some 0, some 5⟩,
                      model := some "claude-sonnet" },
    requestId := none,
    isApiErrorMessage := false,
    timestamp := 2000 }

/-- A second id-less valid record with different token counts and a
different timestamp. -/
def recNoIdB : UsageRecord :=
  { message := some { id := none,
                      usage := some ⟨some 999, some 888, some 777, some 666⟩,
                      model := some "claude-opus" },
    requestId := none,
    isApiErrorMessage := false,
    timestamp := 9999 }

/-- A first request matching the usage endpoint descriptors. -/
def reqUsage1 : HttpRequest :=
  ⟨"GET", "https://claude.ai/api/organizations/org-1/usage", [("Accept", "application/json")]⟩

/-- A later request also matching the usage endpoint descriptors, with a
different URL. -/
def reqUsage2 : HttpRequest :=
  ⟨"GET", "https://claude.ai/api/organizations/org-2/usage?tz=UTC", []⟩

/-- The run where the user never completes the interactive login: the
navigation succeeds, the page settles on the auth domain, and the
five-minute wait expires. -/
def stuckLoginEnv : LoginEnv :=
  { gotoTimesOut := false, urlAfterNav := "https://claude.ai/login", loginWaitTimesOut := true }

/-! # Theorems -/

/-! ## C3: getNestedValue returns present leaves exactly, defaults on absent paths -/

theorem splitDotGo_ne_nil (cs : List Char) : ∀ cur : List Char, splitDotGo cur cs ≠ [] := by
  induction cs with
  | nil => intro cur; simp [splitDotGo]
  | cons c rest ih =>
    intro cur
    by_cases h : c = '.'
    · simp [splitDotGo, h]
    · simpa [splitDotGo, h] using ih (c :: cur)

theorem splitPath_ne_nil (path : String) : splitPath path ≠ [] :=
  splitDotGo_ne_nil path.toList []

theorem walkPath_none (parts : List String) : walkPath none parts = none := by
  cases parts <;> rfl

theorem walkPath_of_leafAt {u : JsonValue} {parts : List String} {w : JsonValue}
    (h : LeafAt u parts w) (hw : w ≠ JsonValue.null) : walkPath (some u) parts = some w := by
  induction h with
  | here v => cases v <;> rfl
  | step fs p rest v w hf _ ih =>
    have h1 : walkPath (some (JsonValue.obj fs)) (p :: rest) = walkPath (findField fs p) rest := rfl
    rw [h1, hf]
    exact ih hw

theorem leafAt_of_walkPath : ∀ (parts : List String) (u w : JsonValue),
    walkPath (some u) parts = some w → w ≠ JsonValue.null → LeafAt u parts w := by
  intro parts
  induction parts with
  | nil =>
    intro u w h _
    have hu : u = w := by simpa [walkPath] using h
    subst hu
    exact LeafAt.here u
  | cons p rest ih =>
    intro u w h hw
    cases u with
    | null => simp [walkPath] at h
    | bool b =>
      have h1 : walkPath (some (JsonValue.bool b)) (p :: rest) = walkPath none rest := rfl
      rw [h1, walkPath_none] at h
      cases h
    | num q =>
      have h1 : walkPath (some (JsonValue.num q)) (p :: rest) = walkPath none rest := rfl
      rw [h1, walkPath_none] at h
      cases h
    | str s =>
      have h1 : walkPath (some (JsonValue.str s)) (p :: rest) = walkPath none rest := rfl
      rw [h1, walkPath_none] at h
      cases h
    | obj fs =>
      have h1 : walkPath (some (JsonValue.obj fs)) (p :: rest) = walkPath (findField fs p) rest := rfl
      rw [h1] at h
      cases hf : findField fs p with
      | none => rw [hf, walkPath_none] at h; cases h
      | some v =>
        rw [hf] at h
        exact LeafAt.step fs p rest v w hf (ih v w h hw)

theorem leafAt_obj_inv {fs : List (String × JsonValue)} {p : String} {rest : List String}
    {w : JsonValue} (h : LeafAt (JsonValue.obj fs) (p :: rest) w) :
    ∃ v, findField fs p = some v ∧ LeafAt v rest w := by
  cases h with
  | step _ _ _ v _ hf hl => exact ⟨v, hf, hl⟩

/-- C3: for every payload object and dot-separated path, if every segment of
the path is structurally present (`LeafAt` reaches a non-null leaf),
`getNestedValue` returns that exact leaf — including the values `0` and
`false` — and if the path is absent (no non-null leaf is reachable, in
particular when an intermediate segment or the leaf is null or missing),
it returns the supplied default; being a total function it never throws. -/
theorem c3_getNestedValue_exact_or_default :
    (∀ (u : JsonValue) (path : String) (d w : JsonValue),
        path ≠ "" → LeafAt u (splitPath path) w → w ≠ JsonValue.null →
        getNestedValue (some u) path d = w) ∧
    (∀ (u : JsonValue) (path : String) (d : JsonValue),
        (¬ ∃ w, LeafAt u (splitPath path) w ∧ w ≠ JsonValue.null) →
        getNestedValue (some u) path d = d) := by
  constructor
  · intro u path d w hpath hleaf hw
    have hwalk := walkPath_of_leafAt hleaf hw
    have hobj : jsFalsyOpt (some u) = false := by
      cases hsp : splitPath path with
      | nil => exact absurd hsp (splitPath_ne_nil path)
      | cons p rest =>
        rw [hsp] at hleaf
        cases hleaf with
        | step => rfl
    unfold getNestedValue
    rw [if_neg]
    · rw [hwalk]
      cases w with
      | null => exact absurd rfl hw
      | bool b => rfl
      | num q => rfl
      | str s => rfl
      | obj fs => rfl
    · rintro (hfal | hempty)
      · rw [hobj] at hfal; cases hfal
      · exact hpath hempty
  · intro u path d hne
    unfold getNestedValue
    by_cases hguard : jsFalsyOpt (some u) = true ∨ path = ""
    · rw [if_pos hguard]
    · rw [if_neg hguard]
      cases hwp : walkPath (some u) (splitPath path) with
      | none => rfl
      | some v =>
        cases v with
        | null => rfl
        | bool b =>
          exact absurd ⟨_, leafAt_of_walkPath _ u _ hwp (by simp), by simp⟩ hne
        | num q =>
          exact absurd ⟨_, leafAt_of_walkPath _ u _ hwp (by simp), by simp⟩ hne
        | str s =>
          exact absurd ⟨_, leafAt_of_walkPath _ u _ hwp (by simp), by simp⟩ hne
        | obj fs =>
          exact absurd ⟨_, leafAt_of_walkPath _ u _ hwp (by simp), by simp⟩ hne

/-- C3 witness: on a concrete payload the present leaves `0` and `false`
come back exactly, and an absent sibling path yields the default. -/
theorem c3_witness :
    getNestedValue (some nestedPayload) "a.b" (JsonValue.num 7) = JsonValue.num 0
    ∧ getNestedValue (some nestedPayload) "a.flag" (JsonValue.num 7) = JsonValue.bool false
    ∧ getNestedValue (some nestedPayload) "a.c" (JsonValue.num 7) = JsonValue.num 7 := by
  refine ⟨?_, ?_, ?_⟩
  · refine c3_getNestedValue_exact_or_default.1 nestedPayload "a.b" (JsonValue.num 7)
      (JsonValue.num 0) (by simp) ?_ (by simp)
    show LeafAt nestedPayload ["a", "b"] (JsonValue.num 0)
    exact LeafAt.step _ "a" ["b"] _ _ rfl (LeafAt.step _ "b" [] _ _ rfl (LeafAt.here _))
  · refine c3_getNestedValue_exact_or_default.1 nestedPayload "a.flag" (JsonValue.num 7)
      (JsonValue.bool false) (by simp) ?_ (by simp)
    show LeafAt nestedPayload ["a", "flag"] (JsonValue.bool false)
    exact LeafAt.step _ "a" ["flag"] _ _ rfl (LeafAt.step _ "flag" [] _ _ rfl (LeafAt.here _))
  · refine c3_getNestedValue_exact_or_default.2 nestedPayload "a.c" (JsonValue.num 7) ?_
    rintro ⟨w, hleaf, hw⟩
    rw [show splitPath "a.c" = ["a", "c"] from rfl] at hleaf
    simp only [nestedPayload] at hleaf
    obtain ⟨v, hf, hl⟩ := leafAt_obj_inv hleaf
    have h1 : findField [("a", JsonValue.obj [("b", JsonValue.num 0), ("flag", JsonValue.bool false)])] "a"
        = some (JsonValue.obj [("b", JsonValue.num 0), ("flag", JsonValue.bool false)]) := rfl
    rw [h1] at hf
    injection hf with hv
    subst hv
    obtain ⟨v2, hf2, _⟩ := leafAt_obj_inv hl
    have h2 : findField [("b", JsonValue.num 0), ("flag", JsonValue.bool false)] "c" = none := rfl
    rw [h2] at hf2
    cases hf2

/-! ## C4: overage transform -/

theorem processOverageData_unfold (p : JsonValue) :
    processOverageData (some p) =
      if jsFalsy p then none
      else if jsFalsy (getNestedValue (some p) "is_enabled" (JsonValue.bool false)) then none
      else
        let usedDollars := (jsToNumber (getNestedValue (some p) "used_credits" (JsonValue.num 0))).map (fun q => q / 100)
        let limitDollars := (jsToNumber (getNestedValue (some p) "monthly_credit_limit" (JsonValue.num 0))).map (fun q => q / 100)
        some { limit := limitDollars, used := usedDollars,
               currency := getNestedValue (some p) "currency" (JsonValue.str "USD"),
               percent :=
                 match limitDollars with
                 | some l2 =>
                   if 0 < l2 then usedDollars.map (fun q => ((jsRound (q / l2 * 100) : Int) : Rat))
                   else some 0
                 | none => some 0,
               outOfCredits := getNestedValue (some p) "out_of_credits" (JsonValue.bool false) } := rfl

/-- C4: for every overage payload with `is_enabled` true and integer cent
amounts, `processOverageData` converts cents to major units (`used/100`,
`limit/100`) and computes `percent = round(used/limit * 100)` behind an
explicit divide-by-zero guard, with `limit = 0` giving `percent = 0`. -/
theorem c4_overage_transform (p : JsonValue) (u l : Int)
    (hp : jsFalsy p = false)
    (he : getNestedValue (some p) "is_enabled" (JsonValue.bool false) = JsonValue.bool true)
    (hu : getNestedValue (some p) "used_credits" (JsonValue.num 0) = JsonValue.num u)
    (hl : getNestedValue (some p) "monthly_credit_limit" (JsonValue.num 0) = JsonValue.num l) :
    processOverageData (some p)
      = some { limit := some ((l : Rat) / 100), used := some ((u : Rat) / 100),
               currency := getNestedValue (some p) "currency" (JsonValue.str "USD"),
               percent := some (if 0 < (l : Rat) / 100
                 then ((jsRound (((u : Rat) / 100) / ((l : Rat) / 100) * 100) : Int) : Rat)
                 else 0),
               outOfCredits := getNestedValue (some p) "out_of_credits" (JsonValue.bool false) }
    ∧ (0 < l →
        (if 0 < (l : Rat) / 100
         then ((jsRound (((u : Rat) / 100) / ((l : Rat) / 100) * 100) : Int) : Rat) else 0)
        = ((jsRound ((u : Rat) / (l : Rat) * 100) : Int) : Rat))
    ∧ (l = 0 →
        (if 0 < (l : Rat) / 100
         then ((jsRound (((u : Rat) / 100) / ((l : Rat) / 100) * 100) : Int) : Rat) else 0) = 0) := by
  refine ⟨?_, ?_, ?_⟩
  · rw [processOverageData_unfold, hp, hu, hl, he]
    simp only [jsFalsy, Bool.false_eq_true, if_false, Bool.not_true, jsToNumber, Option.map_some']
    by_cases hpos : 0 < (l : Rat) / 100
    · rw [if_pos hpos, if_pos hpos]
    · rw [if_neg hpos, if_neg hpos]
  · intro hlpos
    have hcast : (0 : Rat) < (l : Rat) := by exact_mod_cast hlpos
    have hpos : 0 < (l : Rat) / 100 := div_pos hcast (by norm_num)
    rw [if_pos hpos]
    have hne : (l : Rat) ≠ 0 := by
      exact_mod_cast hlpos.ne'
    have harg : ((u : Rat) / 100) / ((l : Rat) / 100) = (u : Rat) / (l : Rat) := by
      field_simp
    rw [harg]
  · intro hl0
    subst hl0
    norm_num

/-- C4 witness: 6300 used cents of a 10000 cent limit give
`used = 63.0`, `limit = 100.0`, `percent = 63`. -/
theorem c4_witness :
    processOverageData (some overagePayload)
      = some { limit := some 100, used := some 63, currency := JsonValue.str "USD",
               percent := some 63, outOfCredits := JsonValue.bool false } := by
  have h := c4_overage_transform overagePayload 6300 10000 rfl rfl rfl rfl
  rw [h.1]
  norm_num [jsRound]
  exact ⟨rfl, rfl⟩

/-! ## C5: reset-time bucket boundaries -/

/-- C5 counterexample: a remaining duration of exactly 1440 minutes (24h)
renders as "24h 0m" — the hours+minutes representation — not as the
days+hours representation "1d 0h" the claim requires for that duration. -/
theorem c5_counterexample :
    calculateResetTime (fun _ => 1440 * 60000) 0 (JsonValue.str "2025-11-21T00:00:00Z") = "24h 0m"
    ∧ "24h 0m" ≠ "1d 0h" := by
  exact ⟨rfl, by decide⟩

/-- C5 as amended: the days+hours bucket starts only when the whole-hour
count exceeds 24, so 1439 and 1440 minutes both render hours+minutes
("23h 59m" and "24h 0m"), the representation switching to days+hours
between 1499 minutes ("24h 59m") and 1500 minutes ("1d 1h"); 59 minutes
renders minutes-only ("59m") while 60 minutes renders hours+minutes
("1h 0m"); a non-positive remaining duration returns "Soon". -/
theorem c5_amended (dateParse : String → Int) (now : Int) (s : String) (hs : s ≠ "") :
    (dateParse s - now = 1439 * 60000 → calculateResetTime dateParse now (JsonValue.str s) = "23h 59m")
    ∧ (dateParse s - now = 1440 * 60000 → calculateResetTime dateParse now (JsonValue.str s) = "24h 0m")
    ∧ (dateParse s - now = 1499 * 60000 → calculateResetTime dateParse now (JsonValue.str s) = "24h 59m")
    ∧ (dateParse s - now = 1500 * 60000 → calculateResetTime dateParse now (JsonValue.str s) = "1d 1h")
    ∧ (dateParse s - now = 59 * 60000 → calculateResetTime dateParse now (JsonValue.str s) = "59m")
    ∧ (dateParse s - now = 60 * 60000 → calculateResetTime dateParse now (JsonValue.str s) = "1h 0m")
    ∧ (dateParse s - now ≤ 0 → calculateResetTime dateParse now (JsonValue.str s) = "Soon") := by
  have hred : calculateResetTime dateParse now (JsonValue.str s)
      = if s = "" then "Unknown" else formatResetDiff (dateParse s - now) := rfl
  refine ⟨?_, ?_, ?_, ?_, ?_, ?_, ?_⟩ <;> intro h
  · rw [hred, if_neg hs, h]; rfl
  · rw [hred, if_neg hs, h]; rfl
  · rw [hred, if_neg hs, h]; rfl
  · rw [hred, if_neg hs, h]; rfl
  · rw [hred, if_neg hs, h]; rfl
  · rw [hred, if_neg hs, h]; rfl
  · rw [hred, if_neg hs]
    unfold formatResetDiff
    rw [if_pos h]

/-- C5 witness: the boundary renderings at concrete clock values. -/
theorem c5_witness :
    calculateResetTime (fun _ => 1439 * 60000) 0 (JsonValue.str "t") = "23h 59m"
    ∧ calculateResetTime (fun _ => 1440 * 60000) 0 (JsonValue.str "t") = "24h 0m"
    ∧ calculateResetTime (fun _ => 1500 * 60000) 0 (JsonValue.str "t") = "1d 1h"
    ∧ calculateResetTime (fun _ => 59 * 60000) 0 (JsonValue.str "t") = "59m"
    ∧ calculateResetTime (fun _ => 60 * 60000) 0 (JsonValue.str "t") = "1h 0m"
    ∧ calculateResetTime (fun _ => -5) 0 (JsonValue.str "t") = "Soon" := by
  refine ⟨?_, ?_, ?_, ?_, ?_, ?_⟩
  · exact (c5_amended (fun _ => 1439 * 60000) 0 "t" (by decide)).1 rfl
  · exact (c5_amended (fun _ => 1440 * 60000) 0 "t" (by decide)).2.1 rfl
  · exact (c5_amended (fun _ => 1500 * 60000) 0 "t" (by decide)).2.2.2.1 rfl
  · exact (c5_amended (fun _ => 59 * 60000) 0 "t" (by decide)).2.2.2.2.1 rfl
  · exact (c5_amended (fun _ => 60 * 60000) 0 "t" (by decide)).2.2.2.2.2.1 rfl
  · exact (c5_amended (fun _ => -5) 0 "t" (by decide)).2.2.2.2.2.2 (by norm_num)

/-! ## C1: snapshot percentage fields -/

/-- C1 counterexample: on the spec's scenario payload the snapshot carries
the raw utilization `0.45`, not `45`; and on a payload missing `five_hour`
entirely the five-hour utilization is coerced to the schema default `0`,
not left `null`. -/
theorem c1_counterexample :
    (processApiResponse sceneDateParse 0 (some usageScenePayload) none none).usagePercent
      = JsonValue.num (45/100)
    ∧ JsonValue.num (45/100) ≠ JsonValue.num 45
    ∧ (processApiResponse sceneDateParse 0 (some (JsonValue.obj [])) none none).usagePercent
      = JsonValue.num 0
    ∧ JsonValue.num 0 ≠ JsonValue.null := by
  refine ⟨rfl, ?_, rfl, ?_⟩
  · intro h
    injection h with h45
    norm_num at h45
  · intro h
    exact JsonValue.noConfusion h

/-- C1 as amended: `processApiResponse` passes utilization values through
unscaled; a structurally absent `five_hour`/`seven_day` utilization is
coerced to the schema default `0`, while the per-model utilizations and
every `resets_at` default to `null`.  On the scenario payload the snapshot
has five-hour utilization `0.45`, seven-day utilization `0.78`, a
"2h 30m" five-hour reset, and the absent `seven_day.resets_at` surfaces
as the null-driven "Unknown" reset time. -/
theorem c1_amended :
    (processApiResponse sceneDateParse 0 (some usageScenePayload) none none).usagePercent
      = JsonValue.num (45/100)
    ∧ (processApiResponse sceneDateParse 0 (some usageScenePayload) none none).usagePercentWeek
      = JsonValue.num (78/100)
    ∧ (processApiResponse sceneDateParse 0 (some usageScenePayload) none none).resetTime
      = "2h 30m"
    ∧ (processApiResponse sceneDateParse 0 (some usageScenePayload) none none).resetTimeWeek
      = "Unknown"
    ∧ objGet (objGet (extractFromSchema (some usageScenePayload) USAGE_API_SCHEMA) "sevenDay") "resetsAt"
      = JsonValue.null
    ∧ (processApiResponse sceneDateParse 0 (some usageScenePayload) none none).usagePercentSonnet
      = JsonValue.null
    ∧ (processApiResponse sceneDateParse 0 (some (JsonValue.obj [])) none none).usagePercent
      = JsonValue.num 0 := by
  exact ⟨rfl, rfl, rfl, rfl, rfl, rfl, rfl⟩

/-! ## C6: HTML fallback failure modes -/

/-- C6: whenever the percentage pattern finds nothing in the page text the
fallback fails with the distinct layout-changed error instead of
returning a snapshot, and whenever only the "resets in" phrase is
missing it returns the snapshot with the "Unknown" placeholder. -/
theorem c6_fallback_errors :
    (∀ bodyText : String, findUsage bodyText.toList = none →
        fetchUsageDataFallback bodyText
          = Except.error "Could not find usage percentage on settings page. The page layout may have changed.")
    ∧ (∀ (bodyText : String) (n : Nat), findUsage bodyText.toList = some n →
        findReset bodyText.toList = none →
        fetchUsageDataFallback bodyText = Except.ok { usagePercent := n, resetTime := "Unknown" }) := by
  constructor
  · intro bodyText h
    unfold fetchUsageDataFallback parseUsagePage
    rw [h]
  · intro bodyText n h1 h2
    unfold fetchUsageDataFallback parseUsagePage
    rw [h1, h2]
    rfl

/-- C6 witness: a page with no percentage fails with the layout-changed
error; the spec's "62% used" page with no reset phrase yields the
"Unknown" placeholder. -/
theorem c6_witness :
    fetchUsageDataFallback "plan details unavailable"
      = Except.error "Could not find usage percentage on settings page. The page layout may have changed."
    ∧ fetchUsageDataFallback "62% used" = Except.ok { usagePercent := 62, resetTime := "Unknown" } := by
  constructor
  · exact c6_fallback_errors.1 "plan details unavailable" rfl
  · exact c6_fallback_errors.2 "62% used" 62 rfl rfl

/-! ## C7: endpoint capture on repeated matches -/

/-- C7 counterexample: after two matching usage requests the captured
endpoint is the second URL — the later match overwrites the first
capture, so first-writer-wins does not hold. -/
theorem c7_counterexample :
    matchesEndpoint reqUsage1.url apiEndpointUsage = true
    ∧ matchesEndpoint reqUsage2.url apiEndpointUsage = true
    ∧ (processRequests initialEndpointState [reqUsage1, reqUsage2]).apiEndpoint = some reqUsage2.url
    ∧ some reqUsage2.url ≠ some reqUsage1.url := by
  refine ⟨rfl, rfl, rfl, ?_⟩
  decide

/-- C7 as amended: every matching request assigns the category's captured
`{url, headers}`, so a later match overwrites an earlier capture
(last-writer-wins); an explicit reset clears every captured endpoint. -/
theorem c7_amended :
    (∀ (s : ScraperEndpointState) (req : HttpRequest),
        matchesEndpoint req.url apiEndpointUsage = true →
        (handleRequest s req).apiEndpoint = some req.url
        ∧ (handleRequest s req).apiHeaders = some (headersWithJson req.headers))
    ∧ (∀ s : ScraperEndpointState,
        (resetEndpoints s).apiEndpoint = none
        ∧ (resetEndpoints s).apiHeaders = none
        ∧ (resetEndpoints s).creditsEndpoint = none
        ∧ (resetEndpoints s).overageEndpoint = none
        ∧ (resetEndpoints s).capturedEndpoints = []) := by
  constructor
  · intro s req h
    cases h0 : jsIncludes req.url "/api/" <;>
      cases hc : matchesEndpoint req.url apiEndpointPrepaidCredits <;>
        cases ho : matchesEndpoint req.url apiEndpointOverageSpendLimit <;>
          simp [handleRequest, h, h0, hc, ho]
  · intro s
    exact ⟨rfl, rfl, rfl, rfl, rfl⟩

/-- C7 witness: a concrete matching request assigns the capture. -/
theorem c7_witness :
    (handleRequest initialEndpointState reqUsage1).apiEndpoint = some reqUsage1.url
    ∧ (handleRequest initialEndpointState reqUsage1).apiHeaders
      = some (headersWithJson reqUsage1.headers) :=
  c7_amended.1 initialEndpointState reqUsage1 rfl

/-! ## C8: the login-timeout error never reaches the caller -/

/-- C8: the claim is right about the intended behavior and the code
contradicts it — when the interactive login wait expires,
`ensureLoggedIn` throws the login-timeout error inside its try block, but
the outer catch rewrites every error whose message contains "timeout",
so the caller receives the connection-failure message instead; no run of
`ensureLoggedIn` can surface the login-timeout error. -/
theorem c8_login_timeout_rewritten :
    ensureLoggedIn stuckLoginEnv = Except.error connectionFailMsg
    ∧ connectionFailMsg ≠ loginTimeoutMsg
    ∧ ensureLoggedInBody stuckLoginEnv = Except.error loginTimeoutMsg
    ∧ (∀ env : LoginEnv, ensureLoggedIn env ≠ Except.error loginTimeoutMsg) := by
  refine ⟨rfl, by decide, rfl, ?_⟩
  intro env h
  cases hb : ensureLoggedInBody env with
  | ok u =>
    have hE : ensureLoggedIn env = Except.ok u := by
      unfold ensureLoggedIn; rw [hb]
    rw [hE] at h
    cases h
  | error msg =>
    have hE : ensureLoggedIn env
        = if jsIncludes msg "timeout" = true then Except.error connectionFailMsg
          else Except.error msg := by
      unfold ensureLoggedIn; rw [hb]
    rw [hE] at h
    cases hj : jsIncludes msg "timeout" with
    | true =>
      rw [if_pos hj] at h
      injection h with hmsg
      exact absurd hmsg (by decide)
    | false =>
      rw [if_neg (by simp [hj])] at h
      injection h with hmsg
      rw [hmsg] at hj
      exact absurd hj (by decide)

/-! ## Dedup and aggregation lemmas (C2, C9, C10) -/

theorem dedupRecords_cons (seen : List String) (a : UsageRecord) (l : List UsageRecord) :
    dedupRecords seen (a :: l)
      = if getRecordHash a ∈ seen then dedupRecords seen l
        else a :: dedupRecords (getRecordHash a :: seen) l := rfl

theorem dedupRecords_hash_not_seen : ∀ (l : List UsageRecord) (seen : List String) (r : UsageRecord),
    r ∈ dedupRecords seen l → getRecordHash r ∉ seen := by
  intro l
  induction l with
  | nil => intro seen r hr; simp [dedupRecords] at hr
  | cons a l ih =>
    intro seen r hr
    by_cases ha : getRecordHash a ∈ seen
    · rw [dedupRecords, if_pos ha] at hr
      exact ih seen r hr
    · rw [dedupRecords, if_neg ha] at hr
      rcases List.mem_cons.mp hr with h | h
      · subst h; exact ha
      · intro hs
        exact ih _ r h (List.mem_cons_of_mem _ hs)

theorem dedupRecords_map_hash_nodup : ∀ (l : List UsageRecord) (seen : List String),
    ((dedupRecords seen l).map getRecordHash).Nodup := by
  intro l
  induction l with
  | nil => intro seen; simp [dedupRecords]
  | cons a l ih =>
    intro seen
    by_cases ha : getRecordHash a ∈ seen
    · rw [dedupRecords, if_pos ha]; exact ih seen
    · rw [dedupRecords, if_neg ha]
      simp only [List.map_cons, List.nodup_cons]
      refine ⟨?_, ih _⟩
      intro hmem
      rcases List.mem_map.mp hmem with ⟨r, hrmem, hrhash⟩
      exact dedupRecords_hash_not_seen l _ r hrmem (by rw [hrhash]; exact List.mem_cons_self _ _)

theorem dedupRecords_append_notmem : ∀ (l : List UsageRecord) (seen : List String) (r : UsageRecord),
    getRecordHash r ∉ seen → getRecordHash r ∉ l.map getRecordHash →
    dedupRecords seen (l ++ [r]) = dedupRecords seen l ++ [r] := by
  intro l
  induction l with
  | nil =>
    intro seen r hs _
    simp only [List.nil_append]
    rw [dedupRecords_cons, if_neg hs]
    rfl
  | cons a l ih =>
    intro seen r hs hm
    have hm2 : getRecordHash r ∉ l.map getRecordHash := fun hx => hm (by simp [hx])
    have hne : getRecordHash r ≠ getRecordHash a := fun hx => hm (by simp [hx])
    by_cases ha : getRecordHash a ∈ seen
    · rw [List.cons_append, dedupRecords_cons, if_pos ha, dedupRecords_cons, if_pos ha]
      exact ih seen r hs hm2
    · have hs2 : getRecordHash r ∉ getRecordHash a :: seen := by
        intro hx
        rcases List.mem_cons.mp hx with h | h
        · exact hne h
        · exact hs h
      rw [List.cons_append, dedupRecords_cons, if_neg ha, dedupRecords_cons, if_neg ha,
        ih (getRecordHash a :: seen) r hs2 hm2]
      rfl

theorem dedupRecords_all_seen : ∀ (l : List UsageRecord) (seen : List String),
    (∀ r ∈ l, getRecordHash r ∈ seen) → dedupRecords seen l = [] := by
  intro l
  induction l with
  | nil => intro seen _; rfl
  | cons a l ih =>
    intro seen hall
    rw [dedupRecords, if_pos (hall a (List.mem_cons_self _ _))]
    exact ih seen (fun r hr => hall r (List.mem_cons_of_mem _ hr))

theorem sum_map_recordTotal (l : List UsageRecord) :
    (l.map recordTotalTokens).sum
      = (l.map (fun r => tokenOrZero (usageOf r).input_tokens)).sum
        + (l.map (fun r => tokenOrZero (usageOf r).output_tokens)).sum
        + (l.map (fun r => tokenOrZero (usageOf r).cache_creation_input_tokens)).sum
        + (l.map (fun r => tokenOrZero (usageOf r).cache_read_input_tokens)).sum := by
  induction l with
  | nil => simp
  | cons a l ih =>
    simp only [List.map_cons, List.sum_cons, ih, recordTotalTokens, calculateTotalTokens]
    ring

theorem loadUsageRecords_records (files : List (List UsageRecord)) (since : Option Int) :
    (loadUsageRecords files since).records = uniqueOf files since := rfl

theorem loadUsageRecords_messageCount (files : List (List UsageRecord)) (since : Option Int) :
    (loadUsageRecords files since).messageCount = (uniqueOf files since).length := rfl

theorem loadUsageRecords_totalTokens (files : List (List UsageRecord)) (since : Option Int) :
    (loadUsageRecords files since).totalTokens
      = ((uniqueOf files since).map recordTotalTokens).sum :=
  (sum_map_recordTotal (uniqueOf files since)).symm

/-! ## C2: no double counting of a composite identity -/

/-- C2: in any one `loadUsageRecords` call the contributing record list is
hash-deduplicated — the dedup keys of its records are pairwise distinct,
two records with the same `(messageId, requestId)` identity always share a
dedup key (so no two positionally distinct contributing records share an
identity, even across source files), and the totals are exactly the sums
over that deduplicated list. -/
theorem c2_identity_counted_once (files : List (List UsageRecord)) (since : Option Int) :
    ((loadUsageRecords files since).records.map getRecordHash).Nodup
    ∧ (loadUsageRecords files since).records.Pairwise
        (fun r1 r2 => ¬ (messageIdOf r1 = messageIdOf r2 ∧ requestIdOf r1 = requestIdOf r2))
    ∧ (loadUsageRecords files since).totalTokens
        = ((loadUsageRecords files since).records.map recordTotalTokens).sum
    ∧ (loadUsageRecords files since).messageCount
        = (loadUsageRecords files since).records.length := by
  have hnodup : ((loadUsageRecords files since).records.map getRecordHash).Nodup := by
    rw [loadUsageRecords_records]
    exact dedupRecords_map_hash_nodup _ []
  refine ⟨hnodup, ?_, ?_, rfl⟩
  · have hp := (List.pairwise_map).mp hnodup
    refine hp.imp ?_
    intro a b hab hsame
    apply hab
    unfold getRecordHash
    rw [hsame.1, hsame.2]
  · rw [loadUsageRecords_totalTokens, loadUsageRecords_records]

/-- C2 witness: the same identity appearing in two different files is
counted once. -/
theorem c2_witness :
    (loadUsageRecords [[recWithIds], [recWithIds, recNoIdA]] none).records = [recWithIds, recNoIdA]
    ∧ (loadUsageRecords [[recWithIds], [recWithIds, recNoIdA]] none).messageCount = 2
    ∧ ((loadUsageRecords [[recWithIds], [recWithIds, recNoIdA]] none).records.map getRecordHash).Nodup := by
  refine ⟨by decide, by decide, ?_⟩
  exact (c2_identity_counted_once [[recWithIds], [recWithIds, recNoIdA]] none).1

/-! ## C9: full recomputation and additivity under one appended record -/

/-- C9: aggregation is a pure function of the file contents, so two runs
over the same unchanged file set give identical aggregates; and appending
one valid, filter-surviving, non-duplicate record to the last file grows
`totalTokens` by exactly that record's token sum and the record count by
exactly one. -/
theorem c9_recompute_and_append :
    (∀ (files : List (List UsageRecord)) (since : Option Int),
        loadUsageRecords files since = loadUsageRecords files since)
    ∧ (∀ (fs : List (List UsageRecord)) (f : List UsageRecord) (r : UsageRecord) (since : Option Int),
        isValidUsageRecord r = true →
        sinceKeeps since r = true →
        getRecordHash r ∉
          (filterSince since
            (((fs ++ [f]).map (fun g => g.filter (fun x => isValidUsageRecord x))).flatten)).map getRecordHash →
        (loadUsageRecords (fs ++ [f ++ [r]]) since).totalTokens
          = (loadUsageRecords (fs ++ [f]) since).totalTokens + recordTotalTokens r
        ∧ (loadUsageRecords (fs ++ [f ++ [r]]) since).messageCount
          = (loadUsageRecords (fs ++ [f]) since).messageCount + 1) := by
  constructor
  · intro files since; rfl
  · intro fs f r since hv hk hnd
    have hflat : ((fs ++ [f ++ [r]]).map (fun g => g.filter (fun x => isValidUsageRecord x))).flatten
        = ((fs ++ [f]).map (fun g => g.filter (fun x => isValidUsageRecord x))).flatten ++ [r] := by
      simp [List.filter_append, List.filter_cons, hv, List.append_assoc]
    have hfil : ∀ X : List UsageRecord,
        filterSince since (X ++ [r]) = filterSince since X ++ [r] := by
      intro X
      cases since with
      | none => rfl
      | some t =>
        have hfs : ∀ Y : List UsageRecord, filterSince (some t) Y
            = if t = 0 then Y else Y.filter (fun x => decide (t ≤ x.timestamp)) := fun Y => rfl
        rw [hfs, hfs]
        by_cases ht : t = 0
        · rw [if_pos ht, if_pos ht]
        · rw [if_neg ht, if_neg ht, List.filter_append]
          have hk2 : (if t = 0 then true else decide (t ≤ r.timestamp)) = true := hk
          rw [if_neg ht] at hk2
          simp [List.filter_cons, hk2]
    have hU : uniqueOf (fs ++ [f ++ [r]]) since = uniqueOf (fs ++ [f]) since ++ [r] := by
      unfold uniqueOf
      rw [hflat, hfil]
      exact dedupRecords_append_notmem _ [] r (by simp) hnd
    constructor
    · rw [loadUsageRecords_totalTokens, loadUsageRecords_totalTokens, hU,
        List.map_append, List.sum_append]
      simp
    · rw [loadUsageRecords_messageCount, loadUsageRecords_messageCount, hU]
      simp

/-- C9 witness: appending one fresh valid record to a one-file set adds
exactly its token sum and one to the count. -/
theorem c9_witness :
    (loadUsageRecords [[recWithIds] ++ [recNoIdA]] none).totalTokens
      = (loadUsageRecords [[recWithIds]] none).totalTokens + recordTotalTokens recNoIdA
    ∧ (loadUsageRecords [[recWithIds] ++ [recNoIdA]] none).messageCount
      = (loadUsageRecords [[recWithIds]] none).messageCount + 1 := by
  have h := c9_recompute_and_append.2 [] [recWithIds] recNoIdA none (by decide) rfl (by decide)
  exact h

/-! ## C10: id-less records collapse onto the dedup key "-" -/

/-- C10: every valid record with an absent-or-empty message id and
absent-or-empty request id has the dedup key `"-"`, so of a file whose
records are all such, `loadUsageRecords` keeps only the first record and
silently drops the rest, whatever their token counts and timestamps. -/
theorem c10_idless_collapse (r1 : UsageRecord) (rs : List UsageRecord)
    (h1 : isValidUsageRecord r1 = true)
    (hid1 : messageIdOf r1 = "" ∧ requestIdOf r1 = "")
    (hrs : ∀ r ∈ rs, isValidUsageRecord r = true ∧ messageIdOf r = "" ∧ requestIdOf r = "") :
    getRecordHash r1 = "-"
    ∧ (∀ r ∈ rs, getRecordHash r = "-")
    ∧ (loadUsageRecords [r1 :: rs] none).records = [r1]
    ∧ (loadUsageRecords [r1 :: rs] none).messageCount = 1
    ∧ (loadUsageRecords [r1 :: rs] none).totalTokens = recordTotalTokens r1 := by
  have hhash1 : getRecordHash r1 = "-" := by
    unfold getRecordHash
    rw [hid1.1, hid1.2]
    rfl
  have hhashs : ∀ r ∈ rs, getRecordHash r = "-" := by
    intro r hr
    obtain ⟨_, hm, hq⟩ := hrs r hr
    unfold getRecordHash
    rw [hm, hq]
    rfl
  have hfilter : (r1 :: rs).filter (fun x => isValidUsageRecord x) = r1 :: rs := by
    rw [List.filter_eq_self]
    intro a ha
    rcases List.mem_cons.mp ha with h | h
    · subst h; exact h1
    · exact (hrs a h).1
  have hrec : (loadUsageRecords [r1 :: rs] none).records = [r1] := by
    rw [loadUsageRecords_records]
    have h0 : uniqueOf [r1 :: rs] none
        = dedupRecords [] ((r1 :: rs).filter (fun x => isValidUsageRecord x)) := by
      unfold uniqueOf
      simp [filterSince]
    rw [h0, hfilter, dedupRecords_cons, if_neg (List.not_mem_nil _), hhash1,
      dedupRecords_all_seen rs ["-"] (fun r hr => by rw [hhashs r hr]; exact List.mem_cons_self _ _)]
  refine ⟨hhash1, hhashs, hrec, ?_, ?_⟩
  · rw [loadUsageRecords_messageCount, ← loadUsageRecords_records, hrec]
    rfl
  · rw [loadUsageRecords_totalTokens, ← loadUsageRecords_records, hrec]
    simp

/-- C10 witness: two id-less valid records with different token counts and
timestamps share the key "-" and only the first is counted. -/
theorem c10_witness :
    getRecordHash recNoIdA = "-"
    ∧ getRecordHash recNoIdB = "-"
    ∧ (loadUsageRecords [[recNoIdA, recNoIdB]] none).records = [recNoIdA]
    ∧ (loadUsageRecords [[recNoIdA, recNoIdB]] none).messageCount = 1 := by
  have h := c10_idless_collapse recNoIdA [recNoIdB] (by decide) ⟨rfl, rfl⟩
    (by
      intro r hr
      rcases List.mem_cons.mp hr with h | h
      · subst h; exact ⟨by decide, rfl, rfl⟩
      · cases h)
  exact ⟨h.1, h.2.1 recNoIdB (List.mem_cons_self _ _), h.2.2.1, h.2.2.2.1⟩

end UsageMonitor
